import Mathlib

/-!
Shallow embedding of `scripts/export-feed.py` (VetMed news feed exporter).

Python strings are modelled as `List Char`.  The regular expressions used by
the script (a fixed, known set) are modelled by a small regex AST `Regex`
together with an executable backtracking matcher; the matcher decides match
*existence*, which is all the script ever uses except for the single capture
group in the parser, which is modelled directly (`extractTitle`).

Case-insensitive matching (`re.IGNORECASE`) is modelled by lowercasing the
subject and writing the pattern literals in lowercase; this is exact for the
ASCII text these patterns consist of.  `$` is modelled as end-of-string and
`.` as any character other than a newline; the script only ever applies these
patterns to single lines, where the two readings of `$` agree.
-/

/-- Python `str` modelled as a list of characters. -/
abbrev Str := List Char

/-- Convenience conversion from Lean string literals. -/
def str (s : String) : Str := s.toList

/-- Python whitespace (`str.strip`, regex `\s`), ASCII part. -/
def isPySpace (c : Char) : Bool :=
  c = ' ' || c = '\t' || c = '\n' || c = '\r' || c = '\x0b' || c = '\x0c'

/-- Regex word character `\w` (ASCII part): letters, digits, underscore. -/
def isWordChar (c : Char) : Bool :=
  c.isAlpha || c.isDigit || c = '_'

/-- Python `str.lower()` (ASCII part). -/
def lowerStr (s : Str) : Str := s.map Char.toLower

/-- Python `str.strip()`: drop leading and trailing whitespace. -/
def pystrip (s : Str) : Str :=
  ((s.dropWhile isPySpace).reverse.dropWhile isPySpace).reverse

/-- Substring test: Python `pat in s`. -/
def hasSub (pat : Str) : Str → Bool
  | [] => pat.isPrefixOf []
  | c :: rest => pat.isPrefixOf (c :: rest) || hasSub pat rest

/-- Fuel-driven worker for `removeAll`; the fuel is an upper bound on the
number of characters still to be examined, so `fuel = s.length` suffices. -/
def removeAllFuel (pat : Str) : Nat → Str → Str
  | _, [] => []
  | 0, s => s
  | fuel + 1, c :: rest =>
    if pat.isPrefixOf (c :: rest) then
      removeAllFuel pat fuel (rest.drop (pat.length - 1))
    else
      c :: removeAllFuel pat fuel rest

/-- Python `s.replace(pat, '')`: remove every (leftmost, non-overlapping)
occurrence of `pat` from `s`.  Only called with non-empty `pat`. -/
def removeAll (pat s : Str) : Str := removeAllFuel pat s.length s

/-- Regex AST covering exactly the constructs used by the script's patterns:
literals, single characters / one-or-more / zero-or-more from a character
class, sequencing, alternation, option, word boundary `\b`, end anchor `$`
and negative lookahead `(?! )`. -/
inductive Regex where
  | eps
  | lit (cs : Str)
  | one (p : Char → Bool)
  | star (p : Char → Bool)
  | plus (p : Char → Bool)
  | seq (a b : Regex)
  | alt (a b : Regex)
  | opt (a : Regex)
  | wordB
  | eol
  | notAhead (a : Regex)

/-- `\b`: the word-character status changes between the previous character
(none at string start) and the next one (none at string end). -/
def boundary (prev : Option Char) (s : Str) : Bool :=
  (match prev with | some c => isWordChar c | none => false)
    != (match s with | c :: _ => isWordChar c | _ => false)

/-- Match a literal, threading the "previous character" through. -/
def matchLit : Str → Option Char → Str → (Option Char → Str → Bool) → Bool
  | [], prev, s, k => k prev s
  | _ :: _, _, [], _ => false
  | c :: l, _, d :: s, k => c == d && matchLit l (some d) s k

/-- All ways of consuming zero or more characters of class `p`, passed to the
continuation `k`. -/
def runStar (p : Char → Bool) (k : Option Char → Str → Bool)
    (prev : Option Char) : Str → Bool
  | [] => k prev []
  | c :: s => k prev (c :: s) || (p c && runStar p k (some c) s)

/-- CPS matcher: `r.run prev s k` is true iff some way of matching `r`
against a prefix of `s` (with `prev` the character just before `s`) leaves a
state accepted by `k`.  This is the usual existential semantics, which agrees
with Python's backtracking engine on match success. -/
def Regex.run : Regex → Option Char → Str → (Option Char → Str → Bool) → Bool
  | .eps, prev, s, k => k prev s
  | .lit cs, prev, s, k => matchLit cs prev s k
  | .one _, _, [], _ => false
  | .one p, _, c :: s, k => p c && k (some c) s
  | .star p, prev, s, k => runStar p k prev s
  | .plus _, _, [], _ => false
  | .plus p, _, c :: s, k => p c && runStar p k (some c) s
  | .seq a b, prev, s, k => a.run prev s (fun prev' s' => b.run prev' s' k)
  | .alt a b, prev, s, k => a.run prev s k || b.run prev s k
  | .opt a, prev, s, k => a.run prev s k || k prev s
  | .wordB, prev, s, k => boundary prev s && k prev s
  | .eol, prev, s, k => s.isEmpty && k prev s
  | .notAhead a, prev, s, k => !(a.run prev s (fun _ _ => true)) && k prev s

/-- Python `re.match`: match anchored at the start (any prefix suffices). -/
def matchStart (r : Regex) (s : Str) : Bool :=
  r.run none s (fun _ _ => true)

/-- Worker for `Regex.search`: try every start position, left to right,
keeping track of the previous character for `\b`. -/
def searchAux (r : Regex) (prev : Option Char) : Str → Bool
  | [] => r.run prev [] (fun _ _ => true)
  | c :: s => r.run prev (c :: s) (fun _ _ => true) || searchAux r (some c) s

/-- Python `re.search`: match at any position. -/
def Regex.search (r : Regex) (s : Str) : Bool := searchAux r none s

/-- Literal pattern from a string. -/
def rlit (s : String) : Regex := .lit s.toList

/-- Sequence a list of patterns. -/
def rseq (l : List Regex) : Regex := l.foldr .seq .eps

/-- Alternation of a list of patterns (empty list never matches). -/
def ralt : List Regex → Regex
  | [] => .one (fun _ => false)
  | [r] => r
  | r :: rs => .alt r (ralt rs)

/-- `\b<lit>`. -/
def bw (s : String) : Regex := rseq [.wordB, rlit s]

/-- `\b<lit>\b`. -/
def bwb (s : String) : Regex := rseq [.wordB, rlit s, .wordB]

/-- `.` : any character but newline. -/
def anyCh (c : Char) : Bool := c != '\n'

/-- `(?!.*<lit>)`: the rest of the line must not contain `<lit>`. -/
def noLater (s : String) : Regex := .notAhead (rseq [.star anyCh, rlit s])

/-! ### The script's static tables -/

/-- `EMOJI_MAP`: ordered (pattern, emoji) priority table. -/
def EMOJI_MAP : List (Regex × Str) :=
  [ (ralt [rlit "gift", rlit "donat", rlit "fund", rlit "million",
      rseq [rlit "$", .plus Char.isDigit], rlit "endow", rlit "philanthrop"],
      str "💰"),
    (ralt [rlit "fellowship", rlit "scholar", rlit "student", rlit "graduat",
      rlit "degree", rlit "class"], str "🎓"),
    (ralt [rlit "research", rlit "study", rlit "discover", rlit "scientist",
      rseq [rlit "lab", .wordB], rlit "investig"], str "🔬"),
    (ralt [rlit "hospital", rlit "clinic", rlit "facility", rlit "center",
      rlit "treatment", rlit "surgery"], str "🏥"),
    (ralt [rlit "dog", rlit "canine", rlit "puppy",
      rseq [rlit "k", .opt (rlit "-"), rlit "9"]], str "🐕"),
    (ralt [rlit "cat", rlit "feline", rlit "kitten"], str "🐱"),
    (ralt [rlit "horse", rlit "equine", rlit "equestrian"], str "🐴"),
    (ralt [rlit "cow", rlit "bovine", rlit "cattle", rlit "livestock",
      rlit "dairy"], str "🐄"),
    (ralt [rlit "pig", rlit "swine", rlit "porcine"], str "🐷"),
    (ralt [rlit "bird", rlit "avian", rlit "poultry", rlit "chicken"], str "🐦"),
    (ralt [rlit "zoo", rlit "wildlife", rlit "exotic", rlit "conservation"],
      str "🦁"),
    (ralt [rlit "cancer", rlit "tumor", rlit "oncolog"], str "🎗️"),
    (ralt [rlit "vaccine", rlit "immun", rlit "virus", rlit "disease",
      rlit "outbreak", rlit "pandemic"], str "💉"),
    (ralt [rlit "award", rlit "honor", rlit "recogni", rlit "winner",
      rlit "achievement"], str "🏆"),
    (ralt [rlit "conference", rlit "symposium", rlit "forum", rlit "event",
      rlit "workshop"], str "📅"),
    (ralt [rlit "one health", rlit "zoonotic", rlit "public health"], str "🌍"),
    (ralt [rlit "nutrition", rlit "diet", rlit "food", rlit "feed"], str "🥗"),
    (ralt [rlit "emergency", rlit "rescue", rlit "disaster"], str "🚨"),
    (ralt [rlit "technology", rlit "ai", rlit "artificial", rlit "digital",
      rlit "robot"], str "🤖"),
    (ralt [rlit "partnership", rlit "collaborat", rlit "agreement"], str "🤝") ]

/-- `JUNK_PATTERNS` (all applied with `re.match`, i.e. anchored at the
start; the leading `^` of the Python patterns is therefore implicit). -/
def JUNK_PATTERNS : List Regex :=
  [ rseq [rlit "read", .opt (rseq [.plus isPySpace, rlit "all"]),
      .opt (rseq [.plus isPySpace, rlit "news"]), .eol],
    rseq [rlit "email", .one isPySpace],
    rlit "mailto:",
    rseq [.plus Char.isDigit, .eol],
    rseq [rlit "page ", .plus Char.isDigit],
    .alt (rseq [rlit "next", .eol]) (rseq [rlit "previous", .eol]),
    rseq [rlit "read more", .eol],
    rseq [rlit "see all", .eol],
    rseq [rlit "school of veterinary medicine", .eol],
    rseq [rlit "veterinary medicine", .eol],
    rseq [rlit "college of veterinary medicine", .eol],
    rseq [rlit "news", .eol],
    rseq [rlit "events", .eol],
    rseq [rlit "home", .eol],
    rlit "contact",
    rlit "about" ]

/-- `VET_HEALTH_KEYWORDS`. -/
def VET_HEALTH_KEYWORDS : List Regex :=
  [ bw "veterin", bw "animal", bwb "pet", bwb "dog", bwb "cat", bw "horse",
    bw "equine",
    bw "bovine", bw "cattle", bw "livestock", bwb "pig", bw "swine",
    bw "poultry", bw "bird",
    bw "wildlife", bwb "zoo", bw "exotic", bw "canine", bw "feline",
    bw "species",
    bw "clinic", bw "hospital", bw "surgery", bw "diagnos", bw "treatment",
    bw "therap",
    bw "disease", bw "virus", bw "bacteri", bw "infect", bw "vaccine",
    bw "immun",
    bw "patholog", bw "oncolog", bw "cancer", bw "tumor",
    rseq [.wordB, rlit "research", noLater "magazine"], bwb "study",
    bw "scientist", bwb "lab",
    bw "one health", bw "zoonotic", bw "public health", bw "epidemiolog",
    bw "nutrition", bwb "diet", bw "pharma", bwb "drug", bw "clinical",
    bw "anatomy", bw "physiology", bw "genetics", bw "molecular", bwb "cell",
    bwb "dvm", bwb "vet", bw "veterinary", bwb "residency", bwb "intern",
    bw "shelter", bwb "rescue", bw "welfare", bw "humane",
    bw "breeding", bw "reproduction", bw "fertility", bw "theriogenology",
    bw "cardio", bw "neuro", bw "ortho", bw "derma", bw "ophthalm",
    bw "dental",
    bw "emergency", bw "critical care", bw "anesthes", bw "radiology",
    bw "imaging",
    bw "necropsy", bw "autopsy", bw "biopsy", bw "histology",
    bw "fellowship", bw "scholarship",
    bw "accredit", bwb "avma", bwb "aaha" ]

/-- `EXCLUDE_KEYWORDS`. -/
def EXCLUDE_KEYWORDS : List Regex :=
  [ rlit "football", rlit "basketball", rlit "baseball", rlit "softball",
    rlit "soccer", rlit "hockey",
    rlit "lacrosse", rlit "volleyball", rlit "tennis", rlit "golf",
    rlit "track and field",
    rlit "athlete", rlit "championship", rlit "tournament", rlit "playoff",
    rseq [rlit "coach", .wordB],
    rseq [rlit "shark", .opt (rlit "s"), .wordB, noLater "aquarium"],
    rseq [rlit "panther", .opt (rlit "s"), .wordB],
    rseq [rlit "tiger", .opt (rlit "s"), .wordB, noLater "zoo"],
    rseq [rlit "bear", .opt (rlit "s"), .wordB, noLater "wildlife"],
    rlit "ncaa", rseq [rlit "nec", .wordB],
    rseq [rlit "conference", .wordB, noLater "veterinary"],
    rlit "spirit squad", rlit "cheerleading", rlit "dance team",
    rlit "entrepreneur", rlit "business school", rseq [rlit "mba", .wordB],
    rlit "law school", rseq [rlit "engineering", noLater "biomedical"],
    rlit "computer science",
    rseq [rlit "music", .wordB], rseq [rlit "art", .wordB, noLater "animals"],
    rlit "theater", rseq [rlit "film", .wordB],
    rlit "political", rlit "election",
    rseq [rlit "president", noLater "university"],
    rlit "real estate", rlit "construction",
    rseq [rlit "architecture", noLater "hospital"] ]

/-- `SCHOOL_URLS.get(source, '')`. -/
def SCHOOL_URLS_get (source : Str) : Str :=
  if source = str "Western University" then str "https://www.westernu.edu"
  else if source = str "Lincoln Memorial University" then []
  else []

/-! ### The script's functions -/

/-- Loop body of `get_emoji`: first pattern that matches wins. -/
def emojiLoop : List (Regex × Str) → Str → Str
  | [], _ => str "📰"
  | (p, e) :: rest, text => if p.search text then e else emojiLoop rest text

/-- `get_emoji(title, summary='')`. -/
def get_emoji (title summary : Str) : Str :=
  emojiLoop EMOJI_MAP (lowerStr (title ++ ' ' :: summary))

/-- `is_vet_health_related(title, source='')`; the `source` argument is
accepted but never used, exactly as in the script. -/
def is_vet_health_related (title : Str) (_source : Str) : Bool :=
  VET_HEALTH_KEYWORDS.any (fun p => p.search (lowerStr title))

/-- `is_off_topic(title)`. -/
def is_off_topic (title : Str) : Bool :=
  EXCLUDE_KEYWORDS.any
    (fun p => p.search (lowerStr title) && !is_vet_health_related title [])

/-- `is_junk(title, url)`. -/
def is_junk (title url : Str) : Bool :=
  if title.length < 10 then true
  else if JUNK_PATTERNS.any (fun p => matchStart p (lowerStr title)) then true
  else if (str "mailto:").isPrefixOf url then true
  else if hasSub (str "/page/") url && (str "/").isSuffixOf url then true
  else if hasSub (str "#footer") url || hasSub (str "#header") url
      || hasSub (str "#nav") url then true
  else if (str "/index.html").isSuffixOf url && title.length < 20 then true
  else false

/-- `fix_url(url, source)`. -/
def fix_url (url source : Str) : Str :=
  if (str "http").isPrefixOf url then url
  else if (str "/").isPrefixOf url then
    let base := SCHOOL_URLS_get source
    if base ≠ [] then base ++ url else url
  else url

/-! ### The parser -/

/-- The dictionary `current` accumulated by the parser: a Python dict whose
keys may each be absent. -/
structure RawArticle where
  title : Option Str := none
  source : Option Str := none
  url : Option Str := none
  date : Option Str := none
deriving DecidableEq

/-- The marker pattern `\[\d+\]` (checked with `re.match`). -/
def markerRe : Regex := rseq [rlit "[", .plus Char.isDigit, rlit "]"]

/-- `re.match(r'\[\d+\]', line)` as a Bool. -/
def isMarker (line : Str) : Bool := matchStart markerRe line

/-- The trailing `\s+(.+)` of the title pattern together with
`.group(1).strip()`.  `rest` never contains a newline here (it is part of a
single line), under which assumption this is exactly the Python behaviour:
the greedy `\s+` leaves the capture starting at the first non-space
character (or, if everything is whitespace, backtracks so the capture is the
final whitespace character, which strips to the empty string). -/
def titleTail (rest : Str) : Option Str :=
  let w := rest.takeWhile isPySpace
  let r := rest.dropWhile isPySpace
  if w.isEmpty then none
  else if r.isEmpty then some []
  else some (pystrip (r.takeWhile anyCh))

/-- `re.match(r'\[\d+\]\s+\[(?:read|unread)\]\s+(.+)', line)` followed by
`.group(1).strip()` on success. -/
def extractTitle (line : Str) : Option Str :=
  match line with
  | '[' :: rest =>
    let ds := rest.takeWhile Char.isDigit
    let rest1 := rest.dropWhile Char.isDigit
    if ds.isEmpty then none
    else
      match rest1 with
      | ']' :: rest2 =>
        let w := rest2.takeWhile isPySpace
        let rest3 := rest2.dropWhile isPySpace
        if w.isEmpty then none
        else if (str "[read]").isPrefixOf rest3 then titleTail (rest3.drop 6)
        else if (str "[unread]").isPrefixOf rest3 then titleTail (rest3.drop 8)
        else none
      | _ => none
  | _ => none

/-- Emit `current` if (and only if) it has a title, as in
`if current and 'title' in current: articles.append(current)`. -/
def flushRec (current : RawArticle) : List RawArticle :=
  if current.title.isSome then [current] else []

/-- The line loop of `parse_blogwatcher_output`. -/
def parseAux : List Str → RawArticle → List RawArticle
  | [], current => flushRec current
  | l :: rest, current =>
    let line := pystrip l
    if isMarker line then
      flushRec current ++ parseAux rest { title := extractTitle line }
    else if (str "Blog:").isPrefixOf line then
      parseAux rest { current with source := some (pystrip (removeAll (str "Blog:") line)) }
    else if (str "URL:").isPrefixOf line then
      parseAux rest { current with url := some (pystrip (removeAll (str "URL:") line)) }
    else if (str "Published:").isPrefixOf line then
      parseAux rest { current with date := some (pystrip (removeAll (str "Published:") line)) }
    else
      parseAux rest current

/-- `parse_blogwatcher_output(output)`. -/
def parse_blogwatcher_output (output : Str) : List RawArticle :=
  parseAux ((pystrip output).splitOn '\n') {}

/-! ### The main filtering pipeline -/

/-- One exported feed item. -/
structure FeedItem where
  emoji : Str
  title : Str
  summary : Str
  url : Str
  source : Str
  date : Str
deriving DecidableEq

/-- The per-article loop of `main`, with the dedup set `seen_titles`
modelled as the list of keys inserted so far (only membership is used). -/
def processLoop : List RawArticle → List Str → List FeedItem
  | [], _ => []
  | a :: rest, seen =>
    let title := a.title.getD []
    let url := a.url.getD []
    let source := a.source.getD (str "Unknown")
    if is_junk title url then processLoop rest seen
    else if is_off_topic title then processLoop rest seen
    else if !is_vet_health_related title source then processLoop rest seen
    else
      let key := (lowerStr title).take 50
      if seen.contains key then processLoop rest seen
      else
        { emoji := get_emoji title [],
          title := title.take 100,
          summary := [],
          url := fix_url url source,
          source := source,
          date := a.date.getD [] } :: processLoop rest (key :: seen)

/-- The `items` list written by `main`: the processed articles, capped with
`processed[:100]`. -/
def mainItems (articles : List RawArticle) : List FeedItem :=
  (processLoop articles []).take 100

/-- The FeedItem the loop builds from the raw fields of an admitted
article (used to state what "the first 100 in filtered order" are). -/
def toItem (a : RawArticle) : FeedItem :=
  { emoji := get_emoji (a.title.getD []) [],
    title := (a.title.getD []).take 100,
    summary := [],
    url := fix_url (a.url.getD []) (a.source.getD (str "Unknown")),
    source := a.source.getD (str "Unknown"),
    date := a.date.getD [] }

/-- The dedup key of an article: `title.lower()[:50]`. -/
def dedupKey (a : RawArticle) : Str := (lowerStr (a.title.getD [])).take 50

/-- The dedup key recomputed from an emitted item's (truncated) title. -/
def itemKey (i : FeedItem) : Str := (lowerStr i.title).take 50

/-- An article that passes the junk, off-topic and relevance gates. -/
def admitted (a : RawArticle) : Bool :=
  !is_junk (a.title.getD []) (a.url.getD [])
    && !is_off_topic (a.title.getD [])
    && is_vet_health_related (a.title.getD []) (a.source.getD (str "Unknown"))

/-! ### Serialization (for the round-trip property)

The repository contains no serializer; the claim about re-parsing requires
one. -/

/-- The optional `Blog:` attribute line of a record. -/
def blogLines : Option Str → List Str
  | some s => [str "Blog: " ++ s]
  | none => []

/-- The optional `URL:` attribute line of a record. -/
def urlLines : Option Str → List Str
  | some u => [str "URL: " ++ u]
  | none => []

/-- The optional `Published:` attribute line of a record. -/
def pubLines : Option Str → List Str
  | some d => [str "Published: " ++ d]
  | none => []

/-- Modelled from the spec: the repository has no serializer, so the
line-oriented format of §4.1 is emitted directly — an index-marker line
`[<integer>] [unread] <title>` (the integer index is not part of a record;
`1` is used) followed by one attribute line per present field, labelled
`Blog:`, `URL:` and `Published:`. -/
def recordLines (r : RawArticle) : List Str :=
  [str "[1] [unread] " ++ r.title.getD []]
    ++ blogLines r.source ++ urlLines r.url ++ pubLines r.date

/-- Modelled from the spec: serialize a record sequence back into the
line-oriented text format (records' lines, newline-separated). -/
def serializeRecords (rs : List RawArticle) : Str :=
  List.intercalate ['\n'] (rs.flatMap recordLines)

/-- A string that survives the parser's trimming untouched: non-empty, no
leading or trailing whitespace, and no interior newline. -/
def cleanStr (s : Str) : Bool :=
  !s.isEmpty
    && (match s with | c :: _ => !isPySpace c | [] => true)
    && (match s.reverse with | c :: _ => !isPySpace c | [] => true)
    && !s.contains '\n'

/-- A value for a labelled attribute line: clean, and not containing its own
label (Python's `str.replace` removes every occurrence of the label, so a
value containing it would not round-trip). -/
def cleanField (label : String) : Option Str → Bool
  | none => true
  | some v => cleanStr v && !hasSub (str label) v

/-- A record whose serialized form parses back to itself: a clean title and
clean attribute values. -/
def cleanRec (r : RawArticle) : Bool :=
  (match r.title with | none => false | some t => cleanStr t)
    && cleanField "Blog:" r.source
    && cleanField "URL:" r.url
    && cleanField "Published:" r.date

/-! ### Helper lemmas -/

theorem emojiLoop_find (l : List (Regex × Str)) (text : Str) :
    emojiLoop l text
      = ((l.find? (fun pe => pe.1.search text)).map Prod.snd).getD (str "📰") := by
  induction l with
  | nil => rfl
  | cons pe rest ih =>
    obtain ⟨p, e⟩ := pe
    by_cases h : p.search text
    · simp [emojiLoop, List.find?, h]
    · simp [emojiLoop, List.find?, h, ih]

theorem emojiLoop_mem (l : List (Regex × Str)) (text : Str) :
    emojiLoop l text = str "📰" ∨ emojiLoop l text ∈ l.map Prod.snd := by
  induction l with
  | nil => exact Or.inl rfl
  | cons pe rest ih =>
    obtain ⟨p, e⟩ := pe
    by_cases h : p.search text
    · right
      simp [emojiLoop, h]
    · rcases ih with h' | h'
      · left
        simpa [emojiLoop, h] using h'
      · right
        simp [emojiLoop, h]
        right
        simpa using h'

/-! ### C2: inclusion overrides exclusion -/

/-- C2: whenever `is_vet_health_related` accepts a title, `is_off_topic`
rejects it (each exclusion hit re-checks relatedness before excluding), and
in particular the championship/service-dogs title is not off-topic. -/
theorem inclusion_overrides_exclusion :
    (∀ t : Str, is_vet_health_related t [] = true → is_off_topic t = false)
    ∧ is_off_topic
        (str "Veterinary cardiology conference features championship-winning service dogs")
      = false := by
  constructor
  · intro t h
    simp [is_off_topic, h]
  · decide

/-- Witness for C2 at the concrete title from the claim. -/
theorem inclusion_overrides_exclusion_witness :
    is_vet_health_related
        (str "Veterinary cardiology conference features championship-winning service dogs") []
      = true
    ∧ is_off_topic
        (str "Veterinary cardiology conference features championship-winning service dogs")
      = false :=
  ⟨by decide,
   inclusion_overrides_exclusion.1
     (str "Veterinary cardiology conference features championship-winning service dogs")
     (by decide)⟩

/-! ### C3: get_emoji is total, deterministic, first-match-wins -/

/-- C3: `get_emoji` (a total Lean function, hence deterministic and defined
on every string including the empty one) returns the emoji of the first
pattern of `EMOJI_MAP`, in table order, matching the lowercased
title-plus-summary text, the newspaper emoji when none matches — so its
value always lies in the emoji column plus the default — and on the
$5-million-gift title it returns 💰 (the funding row precedes the cancer
row). -/
theorem get_emoji_first_match_total :
    (∀ t s : Str, get_emoji t s
      = ((EMOJI_MAP.find? (fun pe => pe.1.search (lowerStr (t ++ ' ' :: s)))).map
          Prod.snd).getD (str "📰"))
    ∧ (∀ t s : Str, get_emoji t s = str "📰"
        ∨ get_emoji t s ∈ EMOJI_MAP.map Prod.snd)
    ∧ get_emoji (str "Veterinary School Receives $5 Million Gift for Cancer Research") []
      = str "💰" := by
  refine ⟨fun t s => ?_, fun t s => ?_, by decide⟩
  · exact emojiLoop_find EMOJI_MAP (lowerStr (t ++ ' ' :: s))
  · exact emojiLoop_mem EMOJI_MAP (lowerStr (t ++ ' ' :: s))

/-! ### C4: short titles are junk -/

/-- C4: any title shorter than 10 characters is junk, whatever the url. -/
theorem short_title_is_junk (t u : Str) (h : t.length < 10) :
    is_junk t u = true := by
  simp [is_junk, h]

/-- Witness for C4: the 4-character title "News" with a non-trivial url. -/
theorem short_title_is_junk_witness :
    (str "News").length < 10
    ∧ is_junk (str "News") (str "https://example.org/a") = true :=
  ⟨by decide, short_title_is_junk (str "News") (str "https://example.org/a") (by decide)⟩

/-! ### C8: URL normalization -/

/-- C8: `fix_url` leaves http-scheme urls unchanged; a site-relative url
(leading `/`) is prefixed with the source's base url when the table has a
non-empty entry and left unchanged when it does not; any other url is left
unchanged. -/
theorem fix_url_spec (u s : Str) :
    ((str "http").isPrefixOf u = true → fix_url u s = u)
    ∧ ((str "/").isPrefixOf u = true →
        (SCHOOL_URLS_get s ≠ [] → fix_url u s = SCHOOL_URLS_get s ++ u)
        ∧ (SCHOOL_URLS_get s = [] → fix_url u s = u))
    ∧ ((str "/").isPrefixOf u = false → fix_url u s = u) := by
  refine ⟨fun h => ?_, fun h => ?_, fun h => ?_⟩
  · simp [fix_url, h]
  · have hh : (str "http").isPrefixOf u = false := by
      cases u with
      | nil => simp [str] at h
      | cons c t =>
        have hc : c = '/' := by
          simp [str, List.isPrefixOf] at h
          exact h.symm
        subst hc
        simp [str, List.isPrefixOf]
    constructor
    · intro hb
      simp [fix_url, hh, h, hb]
    · intro hb
      simp [fix_url, hh, h, hb]
  · by_cases hh : (str "http").isPrefixOf u = true
    · simp [fix_url, hh]
    · simp [fix_url, hh, h]

/-- Witness for C8 on concrete urls: an absolute url, a relative url with a
registered base, and a relative url with an empty base entry. -/
theorem fix_url_spec_witness :
    fix_url (str "https://x.org/a") (str "Western University") = str "https://x.org/a"
    ∧ fix_url (str "/news/gift") (str "Western University")
        = str "https://www.westernu.edu" ++ str "/news/gift"
    ∧ fix_url (str "/news/gift") (str "Lincoln Memorial University") = str "/news/gift" :=
  ⟨(fix_url_spec (str "https://x.org/a") (str "Western University")).1 (by decide),
   by
     have h := ((fix_url_spec (str "/news/gift") (str "Western University")).2.1
       (by decide)).1 (by decide)
     simpa using h,
   ((fix_url_spec (str "/news/gift") (str "Lincoln Memorial University")).2.1
       (by decide)).2 (by decide)⟩

/-! ### C10: only titled records are emitted -/

theorem parseAux_title_isSome :
    ∀ (lines : List Str) (cur : RawArticle) (r : RawArticle),
      r ∈ parseAux lines cur → r.title.isSome = true := by
  intro lines
  induction lines with
  | nil =>
    intro cur r hr
    by_cases h : cur.title.isSome
    · simp [parseAux, flushRec, h] at hr
      subst hr
      exact h
    · simp [parseAux, flushRec, h] at hr
  | cons l rest ih =>
    intro cur r hr
    simp only [parseAux] at hr
    split at hr
    · rcases List.mem_append.mp hr with h1 | h1
      · by_cases h : cur.title.isSome
        · simp [flushRec, h] at h1
          subst h1
          exact h
        · simp [flushRec, h] at h1
      · exact ih _ r h1
    · split at hr
      · exact ih _ r hr
      · split at hr
        · exact ih _ r hr
        · split at hr
          · exact ih _ r hr
          · exact ih _ r hr

/-- C10: every record returned by the parser carries a title; attribute
lines seen before any successful title capture only populate a pending
record that is never flushed. -/
theorem parsed_records_have_title (output : Str) (r : RawArticle)
    (hr : r ∈ parse_blogwatcher_output output) : r.title.isSome = true :=
  parseAux_title_isSome _ _ r hr

/-- Witness for C10: a concrete input whose leading attribute lines precede
the first marker and whose single record carries its title. -/
theorem parsed_records_have_title_witness :
    ({ title := some (str "Veterinary clinic expands services"),
       source := some (str "Western University"), url := none, date := none } : RawArticle)
      ∈ parse_blogwatcher_output
          (str "Blog: Orphan Source\nURL: /orphan\n[7] [read] Veterinary clinic expands services\nBlog: Western University")
    ∧ (({ title := some (str "Veterinary clinic expands services"),
          source := some (str "Western University"), url := none, date := none } : RawArticle)).title.isSome
        = true :=
  ⟨by decide,
   parsed_records_have_title
     (str "Blog: Orphan Source\nURL: /orphan\n[7] [read] Veterinary clinic expands services\nBlog: Western University")
     _ (by decide)⟩

/-! ### Clean strings and symbolic parsing lemmas -/

theorem clean_ne_nil {t : Str} (h : cleanStr t = true) : t ≠ [] := by
  intro he
  subst he
  simp [cleanStr] at h

theorem clean_parts {c : Char} {t : Str} (h : cleanStr (c :: t) = true) :
    isPySpace c = false ∧ (c :: t).contains '\n' = false := by
  simp only [cleanStr, Bool.and_eq_true] at h
  constructor
  · simpa using h.1.1.2
  · simpa using h.2

theorem contains_append (p t : Str) (c : Char) :
    (p ++ t).contains c = (p.contains c || t.contains c) := by
  simp

theorem takeWhile_of_not_contains {t : Str} (h : t.contains '\n' = false) :
    t.takeWhile anyCh = t := by
  induction t with
  | nil => rfl
  | cons c rest ih =>
    simp only [List.contains_cons, Bool.or_eq_false_iff] at h
    have hc : anyCh c = true := by
      simp only [anyCh, bne_iff_ne, ne_eq]
      intro he
      subst he
      simp at h
    simp [List.takeWhile_cons, hc, ih h.2]

theorem pystrip_eq_self {t : Str} (h : cleanStr t = true) : pystrip t = t := by
  have hne : t ≠ [] := clean_ne_nil h
  simp only [cleanStr, Bool.and_eq_true] at h
  have h1 : t.dropWhile isPySpace = t := by
    cases t with
    | nil => rfl
    | cons c rest =>
      have hc : isPySpace c = false := by simpa using h.1.1.2
      simp [List.dropWhile_cons, hc]
  have h2 : t.reverse.dropWhile isPySpace = t.reverse := by
    cases hrev : t.reverse with
    | nil => rfl
    | cons d r =>
      rw [hrev] at h
      have hd : isPySpace d = false := by simpa using h.1.2
      simp [List.dropWhile_cons, hd]
  simp [pystrip, h1, h2]

theorem cleanStr_append {p t : Str} (hp : p ≠ [])
    (hph : ∀ c r, p = c :: r → isPySpace c = false)
    (hpn : p.contains '\n' = false) (ht : cleanStr t = true) :
    cleanStr (p ++ t) = true := by
  have htne : t ≠ [] := clean_ne_nil ht
  simp only [cleanStr, Bool.and_eq_true] at ht ⊢
  refine ⟨⟨⟨?_, ?_⟩, ?_⟩, ?_⟩
  · simp [hp]
  · cases p with
    | nil => exact absurd rfl hp
    | cons c r => simpa using hph c r rfl
  · rw [List.reverse_append]
    cases hrev : t.reverse with
    | nil => simp [List.reverse_eq_nil_iff.mp hrev] at htne
    | cons d r =>
      rw [hrev] at ht
      simpa using ht.1.2
  · have h2 : t.contains '\n' = false := by simpa using ht.2
    simp only [Bool.not_eq_true']
    rw [contains_append, hpn, h2]
    rfl

theorem splitOn_single {l : Str} (h : l.contains '\n' = false) :
    l.splitOn '\n' = [l] := by
  apply List.splitOnP_eq_single
  intro x hx hbeq
  have hx' : x = '\n' := by simpa using hbeq
  subst hx'
  simp at h
  exact h hx

theorem isMarker_one (rest : Str) : isMarker ('[' :: '1' :: ']' :: rest) = true := by
  simp [isMarker, matchStart, markerRe, rseq, rlit, Regex.run, matchLit, runStar,
    show Char.isDigit '1' = true from rfl]

theorem titleTail_space {t : Str} (h : cleanStr t = true) :
    titleTail (' ' :: t) = some t := by
  obtain ⟨c, t', rfl⟩ : ∃ c t', t = c :: t' := by
    cases t with
    | nil => exact absurd rfl (clean_ne_nil h)
    | cons c t' => exact ⟨c, t', rfl⟩
  obtain ⟨hc, hnl⟩ := clean_parts h
  simp only [titleTail, List.takeWhile_cons, List.dropWhile_cons,
    show isPySpace ' ' = true from rfl, hc]
  simp [takeWhile_of_not_contains hnl, pystrip_eq_self h]

theorem extractTitle_unread {t : Str} (h : cleanStr t = true) :
    extractTitle (str "[1] [unread] " ++ t) = some t := by
  have he : str "[1] [unread] " ++ t
      = '[' :: '1' :: ']' :: ' ' :: '[' :: 'u' :: 'n' :: 'r' :: 'e' :: 'a' :: 'd' :: ']' :: ' ' :: t := by
    simp [str]
  rw [he,
    show extractTitle
        ('[' :: '1' :: ']' :: ' ' :: '[' :: 'u' :: 'n' :: 'r' :: 'e' :: 'a' :: 'd' :: ']' :: ' ' :: t)
      = titleTail (' ' :: t) from rfl]
  exact titleTail_space h

theorem extractTitle_noTag {t : Str} (h : cleanStr t = true)
    (h1 : (str "[read]").isPrefixOf t = false)
    (h2 : (str "[unread]").isPrefixOf t = false) :
    extractTitle (str "[1] " ++ t) = none := by
  obtain ⟨c, t', rfl⟩ : ∃ c t', t = c :: t' := by
    cases t with
    | nil => exact absurd rfl (clean_ne_nil h)
    | cons c t' => exact ⟨c, t', rfl⟩
  obtain ⟨hc, _⟩ := clean_parts h
  have he : str "[1] " ++ c :: t' = '[' :: '1' :: ']' :: ' ' :: c :: t' := by
    simp [str]
  rw [he,
    show extractTitle ('[' :: '1' :: ']' :: ' ' :: c :: t')
      = (if (str "[read]").isPrefixOf (List.dropWhile isPySpace (c :: t')) then
          titleTail ((List.dropWhile isPySpace (c :: t')).drop 6)
        else if (str "[unread]").isPrefixOf (List.dropWhile isPySpace (c :: t')) then
          titleTail ((List.dropWhile isPySpace (c :: t')).drop 8)
        else none) from rfl]
  rw [List.dropWhile_cons]
  simp [hc, h1, h2]

theorem cleanStr_lit_append {p : String} {t : Str} (ht : cleanStr t = true)
    (hp : p.toList ≠ []) (hph : ∀ c r, p.toList = c :: r → isPySpace c = false)
    (hpn : p.toList.contains '\n' = false) :
    cleanStr (str p ++ t) = true :=
  cleanStr_append hp hph hpn ht


theorem parseAux_one_marker (l : Str) (hm : isMarker (pystrip l) = true) :
    parseAux [l] {}
      = flushRec ⟨extractTitle (pystrip l), none, none, none⟩ := by
  simp only [parseAux, hm, if_true]
  simp [flushRec]

/-! ### C1: title extraction requires the read/unread tag -/

/-- C1 counterexample: a marker line carrying a title but no
`[read]`/`[unread]` tag produces no record at all (the title capture fails,
so the pending record has no title and is never flushed). -/
theorem untagged_marker_line_yields_no_record :
    parse_blogwatcher_output (str "[1] Veterinary dog care news") = [] := by
  decide

/-- C1 amended: the read/unread tag is mandatory, not optional.  A marker
line `[1] [unread] <title>` yields a record whose title is the text after
the tag, but a marker line `[1] <title>` without the tag yields no
record. -/
theorem title_requires_read_tag :
    ∀ t : Str, cleanStr t = true →
      parse_blogwatcher_output (str "[1] [unread] " ++ t)
          = [{ title := some t, source := none, url := none, date := none }]
      ∧ ((str "[read]").isPrefixOf t = false → (str "[unread]").isPrefixOf t = false →
          parse_blogwatcher_output (str "[1] " ++ t) = []) := by
  intro t ht
  have hnl : t.contains '\n' = false := by
    obtain ⟨c, t', rfl⟩ : ∃ c t', t = c :: t' := by
      cases t with
      | nil => exact absurd rfl (clean_ne_nil ht)
      | cons c t' => exact ⟨c, t', rfl⟩
    exact (clean_parts ht).2
  constructor
  · have hcl : cleanStr (str "[1] [unread] " ++ t) = true := by
      refine cleanStr_lit_append ht (by decide) ?_ (by decide)
      intro c r heq
      rw [show ("[1] [unread] " : String).toList
          = '[' :: '1' :: ']' :: ' ' :: '[' :: 'u' :: 'n' :: 'r' :: 'e' :: 'a' :: 'd' :: ']' :: ' ' :: ([] : Str)
        from rfl] at heq
      injection heq with hc _
      rw [← hc]
      decide
    have hnl' : (str "[1] [unread] " ++ t).contains '\n' = false := by
      rw [contains_append]
      rw [hnl, show (str "[1] [unread] ").contains '\n' = false from by decide]
      rfl
    rw [parse_blogwatcher_output, pystrip_eq_self hcl, splitOn_single hnl',
      parseAux_one_marker _ (by
        rw [pystrip_eq_self hcl]
        rw [show str "[1] [unread] " ++ t
            = '[' :: '1' :: ']' :: ' ' :: '[' :: 'u' :: 'n' :: 'r' :: 'e' :: 'a' :: 'd' :: ']' :: ' ' :: t
          from by simp [str]]
        exact isMarker_one _)]
    rw [pystrip_eq_self hcl, extractTitle_unread ht]
    simp [flushRec]
  · intro h1 h2
    have hcl : cleanStr (str "[1] " ++ t) = true := by
      refine cleanStr_lit_append ht (by decide) ?_ (by decide)
      intro c r heq
      rw [show ("[1] " : String).toList = '[' :: '1' :: ']' :: ' ' :: ([] : Str) from rfl] at heq
      injection heq with hc _
      rw [← hc]
      decide
    have hnl' : (str "[1] " ++ t).contains '\n' = false := by
      rw [contains_append]
      rw [hnl, show (str "[1] ").contains '\n' = false from by decide]
      rfl
    rw [parse_blogwatcher_output, pystrip_eq_self hcl, splitOn_single hnl',
      parseAux_one_marker _ (by
        rw [pystrip_eq_self hcl]
        rw [show str "[1] " ++ t = '[' :: '1' :: ']' :: ' ' :: t from by simp [str]]
        exact isMarker_one _)]
    rw [pystrip_eq_self hcl, extractTitle_noTag ht h1 h2]
    simp [flushRec]

/-- Witness for the amended C1 at a concrete clean title. -/
theorem title_requires_read_tag_witness :
    cleanStr (str "Dog clinic opens") = true
    ∧ parse_blogwatcher_output (str "[1] [unread] " ++ str "Dog clinic opens")
        = [{ title := some (str "Dog clinic opens"), source := none, url := none, date := none }]
    ∧ parse_blogwatcher_output (str "[1] " ++ str "Dog clinic opens") = [] :=
  ⟨by decide,
   (title_requires_read_tag (str "Dog clinic opens") (by decide)).1,
   (title_requires_read_tag (str "Dog clinic opens") (by decide)).2 (by decide) (by decide)⟩

/-! ### Step lemmas for the processing loop -/

theorem processLoop_cons_skip (a : RawArticle) (rest : List RawArticle)
    (seen : List Str) (h : admitted a = false) :
    processLoop (a :: rest) seen = processLoop rest seen := by
  by_cases h1 : is_junk (a.title.getD []) (a.url.getD []) = true
  · simp [processLoop, h1]
  · rw [Bool.not_eq_true] at h1
    by_cases h2 : is_off_topic (a.title.getD []) = true
    · simp [processLoop, h1, h2]
    · rw [Bool.not_eq_true] at h2
      have h3 : is_vet_health_related (a.title.getD [])
          (a.source.getD (str "Unknown")) = false := by
        by_cases h3 : is_vet_health_related (a.title.getD [])
            (a.source.getD (str "Unknown")) = true
        · exfalso
          simp only [admitted, h1, h2, h3] at h
          simp at h
        · rwa [Bool.not_eq_true] at h3
      simp [processLoop, h1, h2, h3]

theorem processLoop_cons_dup (a : RawArticle) (rest : List RawArticle)
    (seen : List Str) (h : admitted a = true)
    (hseen : seen.contains (dedupKey a) = true) :
    processLoop (a :: rest) seen = processLoop rest seen := by
  simp only [admitted, Bool.and_eq_true, Bool.not_eq_true'] at h
  obtain ⟨⟨h1, h2⟩, h3⟩ := h
  have hseen' : (lowerStr (a.title.getD [])).take 50 ∈ seen := by
    simpa [dedupKey] using hseen
  simp [processLoop, h1, h2, h3, hseen']

theorem processLoop_cons_emit (a : RawArticle) (rest : List RawArticle)
    (seen : List Str) (h : admitted a = true)
    (hseen : seen.contains (dedupKey a) = false) :
    processLoop (a :: rest) seen
      = toItem a :: processLoop rest (dedupKey a :: seen) := by
  simp only [admitted, Bool.and_eq_true, Bool.not_eq_true'] at h
  obtain ⟨⟨h1, h2⟩, h3⟩ := h
  have hseen' : (lowerStr (a.title.getD [])).take 50 ∉ seen := by
    simpa [dedupKey] using hseen
  simp [processLoop, h1, h2, h3, hseen', toItem, dedupKey]

/-! ### C5: dedup key is the lowercased 50-character title prefix -/

/-- C5: for two admitted records, the run emits one FeedItem when their
lowercased titles agree on the first 50 characters and two when they
differ there. -/
theorem dedup_by_lowercase_prefix50 (a b : RawArticle)
    (ha : admitted a = true) (hb : admitted b = true) :
    (dedupKey a = dedupKey b → (mainItems [a, b]).length = 1)
    ∧ (dedupKey a ≠ dedupKey b → (mainItems [a, b]).length = 2) := by
  constructor
  · intro hk
    rw [mainItems, processLoop_cons_emit a [b] [] ha rfl,
      processLoop_cons_dup b [] [dedupKey a] hb (by rw [hk]; simp)]
    simp [processLoop]
  · intro hk
    rw [mainItems, processLoop_cons_emit a [b] [] ha rfl,
      processLoop_cons_emit b [] [dedupKey a] hb (by simpa using fun he => hk he.symm)]
    simp [processLoop]

/-- Witness for C5: two admitted pairs — titles agreeing on the first 50
characters yield one item; titles differing early yield two. -/
theorem dedup_by_lowercase_prefix50_witness :
    (mainItems
      [{ title := some (str "Veterinary cardiology research update for small animals alpha"),
         source := none, url := none, date := none },
       { title := some (str "Veterinary cardiology research update for small animals beta"),
         source := none, url := none, date := none }]).length = 1
    ∧ (mainItems
      [{ title := some (str "Veterinary cardiology research update for small animals alpha"),
         source := none, url := none, date := none },
       { title := some (str "Equine dentistry research update for large animals"),
         source := none, url := none, date := none }]).length = 2 :=
  ⟨(dedup_by_lowercase_prefix50
      { title := some (str "Veterinary cardiology research update for small animals alpha"),
        source := none, url := none, date := none }
      { title := some (str "Veterinary cardiology research update for small animals beta"),
        source := none, url := none, date := none }
      (by decide) (by decide)).1 (by decide),
   (dedup_by_lowercase_prefix50
      { title := some (str "Veterinary cardiology research update for small animals alpha"),
        source := none, url := none, date := none }
      { title := some (str "Equine dentistry research update for large animals"),
        source := none, url := none, date := none }
      (by decide) (by decide)).2 (by decide)⟩

/-! ### C6: output capped at the first 100 items -/

theorem processLoop_all_emit :
    ∀ (arts : List RawArticle) (seen : List Str),
      (∀ a ∈ arts, admitted a = true) →
      (arts.map dedupKey).Nodup →
      (∀ a ∈ arts, dedupKey a ∉ seen) →
      processLoop arts seen = arts.map toItem := by
  intro arts
  induction arts with
  | nil => intro seen _ _ _; rfl
  | cons a rest ih =>
    intro seen hadm hnodup hseen
    rw [processLoop_cons_emit a rest seen (hadm a (List.mem_cons_self a rest))
      (by simpa using hseen a (List.mem_cons_self a rest))]
    rw [ih (dedupKey a :: seen)
      (fun x hx => hadm x (List.mem_cons_of_mem a hx))
      (by simpa using (List.nodup_cons.mp (by simpa using hnodup)).2)
      (fun x hx => by
        have hx1 : dedupKey x ≠ dedupKey a := by
          intro he
          exact (List.nodup_cons.mp (by simpa using hnodup)).1
            (he ▸ List.mem_map_of_mem dedupKey hx)
        have hx2 : dedupKey x ∉ seen := hseen x (List.mem_cons_of_mem a hx)
        simp [hx1, hx2])]
    rfl

/-- C6: the items list is `processed[:100]`: it never exceeds 100 elements,
and a run with 150 admitted, key-distinct articles produces exactly the
first 100 of them in filtered input order. -/
theorem items_capped_at_100 (arts : List RawArticle) :
    (mainItems arts).length ≤ 100
    ∧ (arts.length = 150 →
        (∀ a ∈ arts, admitted a = true) →
        (arts.map dedupKey).Nodup →
        mainItems arts = (arts.map toItem).take 100
        ∧ (mainItems arts).length = 100) := by
  refine ⟨?_, fun hlen hadm hnodup => ?_⟩
  · simp only [mainItems, List.length_take]
    omega
  · have he : mainItems arts = (arts.map toItem).take 100 := by
      rw [mainItems, processLoop_all_emit arts [] hadm hnodup (by simp)]
    refine ⟨he, ?_⟩
    rw [he]
    simp [List.length_take, hlen]


/-- Three decimal digits of `n` (for building distinct witness titles). -/
def digit3 (n : Nat) : Str :=
  [Char.ofNat (48 + n / 100), Char.ofNat (48 + n / 10 % 10), Char.ofNat (48 + n % 10)]

/-- A witness article: an admitted title with a distinct three-digit prefix. -/
def capArticle (n : Nat) : RawArticle :=
  { title := some (digit3 n ++ str " dog care"), source := none, url := none, date := none }

/-- 150 admitted articles with pairwise distinct dedup keys. -/
def capArticles : List RawArticle :=
  (List.range 150).map capArticle

set_option maxRecDepth 10000 in
theorem capArticle_admitted : ∀ n, n < 150 → admitted (capArticle n) = true := by
  intro n hn
  interval_cases n <;> decide

set_option maxRecDepth 100000 in
set_option maxHeartbeats 4000000 in
/-- Witness for C6 on a concrete run of 150 admitted articles. -/
theorem items_capped_at_100_witness :
    capArticles.length = 150
    ∧ (mainItems capArticles = (capArticles.map toItem).take 100
       ∧ (mainItems capArticles).length = 100) :=
  ⟨by simp [capArticles],
   (items_capped_at_100 capArticles).2 (by simp [capArticles])
     (fun a ha => by
       obtain ⟨n, hn, rfl⟩ := List.mem_map.mp ha
       exact capArticle_admitted n (List.mem_range.mp hn))
     (by decide)⟩

/-! ### C7: the FeedItem invariant -/

/-- C7 counterexample: titles are truncated to 100 characters *after* the
filters run, so a FeedItem's own title need not be vet/health related: a
title whose only vet keyword lies past position 100 is admitted, yet the
truncated item title matches no vet/health keyword. -/
theorem feeditem_not_vet_related_after_truncation :
    (mainItems
      [{ title := some (List.replicate 100 'a' ++ str " dog"),
         source := none, url := none, date := none }]).map
        (fun i => is_vet_health_related i.title []) = [false] := by
  decide

theorem processLoop_invariant :
    ∀ (arts : List RawArticle) (seen : List Str),
      (∀ i ∈ processLoop arts seen,
        ((∃ a : RawArticle, admitted a = true ∧ i = toItem a) ∧ itemKey i ∉ seen))
      ∧ ((processLoop arts seen).map itemKey).Nodup := by
  intro arts
  induction arts with
  | nil => intro seen; simp [processLoop]
  | cons a rest ih =>
    intro seen
    by_cases hadm : admitted a = true
    · by_cases hseen : seen.contains (dedupKey a) = true
      · rw [processLoop_cons_dup a rest seen hadm hseen]
        exact ih seen
      · rw [Bool.not_eq_true] at hseen
        rw [processLoop_cons_emit a rest seen hadm hseen]
        have hkey : itemKey (toItem a) = dedupKey a := by
          simp [itemKey, toItem, dedupKey, lowerStr, List.map_take, List.take_take]
        constructor
        · intro i hi
          rcases List.mem_cons.mp hi with rfl | hi
          · refine ⟨⟨a, hadm, rfl⟩, ?_⟩
            rw [hkey]
            simpa using hseen
          · have h2 := (ih (dedupKey a :: seen)).1 i hi
            exact ⟨h2.1, fun hmem => h2.2 (List.mem_cons_of_mem _ hmem)⟩
        · simp only [List.map_cons]
          rw [List.nodup_cons]
          refine ⟨?_, (ih (dedupKey a :: seen)).2⟩
          intro hmem
          rcases List.mem_map.mp hmem with ⟨i, hi, hkeq⟩
          apply ((ih (dedupKey a :: seen)).1 i hi).2
          rw [hkeq, hkey]
          exact List.mem_cons_self _ _
    · rw [processLoop_cons_skip a rest seen (by rwa [Bool.not_eq_true] at hadm)]
      exact ih seen

/-- C7 amended: every FeedItem in the final output has a title of at most
100 characters, an empty summary, and a dedup key distinct from every other
item of the run; it is the image of an admitted article (not junk, not
off-topic, vet/health related for the *pre-truncation* title).  The junk,
off-topic and relatedness predicates need not hold of the item's own
(truncated) title. -/
theorem feeditem_invariant_amended (arts : List RawArticle) :
    (∀ i ∈ mainItems arts,
      i.title.length ≤ 100 ∧ i.summary = []
      ∧ ∃ a : RawArticle, admitted a = true ∧ i = toItem a)
    ∧ ((mainItems arts).map itemKey).Nodup := by
  constructor
  · intro i hi
    have hi' : i ∈ processLoop arts [] := List.take_subset 100 _ hi
    obtain ⟨⟨a, hadm, rfl⟩, _⟩ := (processLoop_invariant arts []).1 i hi'
    refine ⟨?_, rfl, a, hadm, rfl⟩
    simp only [toItem, List.length_take]
    omega
  · rw [mainItems, List.map_take]
    exact List.Nodup.sublist (List.take_sublist 100 _) (processLoop_invariant arts []).2

/-- Witness for the amended C7 at a concrete admitted article. -/
theorem feeditem_invariant_amended_witness :
    (toItem
      { title := some (str "Canine vaccine study"), source := none,
        url := none, date := none }).title.length ≤ 100
    ∧ (toItem
      { title := some (str "Canine vaccine study"), source := none,
        url := none, date := none }).summary = []
    ∧ ∃ a : RawArticle, admitted a = true
        ∧ toItem
            { title := some (str "Canine vaccine study"), source := none,
              url := none, date := none } = toItem a :=
  (feeditem_invariant_amended
    [{ title := some (str "Canine vaccine study"), source := none, url := none, date := none }]).1
    (toItem { title := some (str "Canine vaccine study"), source := none, url := none, date := none })
    (by decide)

/-! ### Lemmas for the parse/serialize round trip -/

theorem isPrefixOf_append_self (l t : Str) : l.isPrefixOf (l ++ t) = true := by
  rw [List.isPrefixOf_iff_prefix]
  exact List.prefix_append l t

theorem removeAllFuel_no_sub {pat : Str} :
    ∀ (fuel : Nat) (s : Str), hasSub pat s = false → removeAllFuel pat fuel s = s := by
  intro fuel
  induction fuel with
  | zero => intro s _; cases s <;> rfl
  | succ f ih =>
    intro s hs
    cases s with
    | nil => rfl
    | cons c rest =>
      rw [show hasSub pat (c :: rest)
          = (pat.isPrefixOf (c :: rest) || hasSub pat rest) from rfl] at hs
      simp only [Bool.or_eq_false_iff] at hs
      simp only [removeAllFuel, hs.1, Bool.false_eq_true, if_false]
      rw [ih rest hs.2]

theorem removeAll_label {lbl rest : Str} (hne : lbl ≠ [])
    (hno : hasSub lbl rest = false) :
    removeAll lbl (lbl ++ rest) = rest := by
  obtain ⟨c, l', rfl⟩ : ∃ c l', lbl = c :: l' := by
    cases lbl with
    | nil => exact absurd rfl hne
    | cons c l' => exact ⟨c, l', rfl⟩
  have hpre : (c :: l').isPrefixOf (c :: (l' ++ rest)) = true := by
    rw [show c :: (l' ++ rest) = (c :: l') ++ rest from rfl]
    exact isPrefixOf_append_self _ _
  have hlen : ((c :: l') ++ rest).length = (l'.length + rest.length) + 1 := by
    simp [Nat.add_comm]
  rw [removeAll, hlen,
    show (c :: l') ++ rest = c :: (l' ++ rest) from rfl]
  simp only [removeAllFuel, hpre, if_true]
  rw [show (c :: l').length - 1 = l'.length from by simp, List.drop_left]
  exact removeAllFuel_no_sub _ rest hno

theorem pystrip_cons_space (v : Str) : pystrip (' ' :: v) = pystrip v := by
  simp [pystrip, List.dropWhile_cons, isPySpace]

theorem cleanStr_unread_line {t : Str} (h : cleanStr t = true) :
    cleanStr (str "[1] [unread] " ++ t) = true := by
  refine cleanStr_lit_append h (by decide) ?_ (by decide)
  intro c r heq
  rw [show ("[1] [unread] " : String).toList
      = '[' :: '1' :: ']' :: ' ' :: '[' :: 'u' :: 'n' :: 'r' :: 'e' :: 'a' :: 'd' :: ']' :: ' ' :: ([] : Str)
    from rfl] at heq
  injection heq with hc _
  rw [← hc]
  decide

theorem parseAux_marker_line {t : Str} (h : cleanStr t = true)
    (rest : List Str) (cur : RawArticle) :
    parseAux ((str "[1] [unread] " ++ t) :: rest) cur
      = flushRec cur
        ++ parseAux rest { title := some t, source := none, url := none, date := none } := by
  have hcl := cleanStr_unread_line h
  have hm : isMarker (str "[1] [unread] " ++ t) = true := by
    rw [show str "[1] [unread] " ++ t
        = '[' :: '1' :: ']' :: ' ' :: '[' :: 'u' :: 'n' :: 'r' :: 'e' :: 'a' :: 'd' :: ']' :: ' ' :: t
      from by simp [str]]
    exact isMarker_one _
  simp only [parseAux, pystrip_eq_self hcl, hm, if_true, extractTitle_unread h]

theorem parseAux_blog_line {s : Str} (hs : cleanStr s = true)
    (hno : hasSub (str "Blog:") s = false) (rest : List Str) (cur : RawArticle) :
    parseAux ((str "Blog: " ++ s) :: rest) cur
      = parseAux rest { cur with source := some s } := by
  have hcl : cleanStr (str "Blog: " ++ s) = true := by
    refine cleanStr_lit_append hs (by decide) ?_ (by decide)
    intro c r heq
    rw [show ("Blog: " : String).toList
        = 'B' :: 'l' :: 'o' :: 'g' :: ':' :: ' ' :: ([] : Str) from rfl] at heq
    injection heq with hc _
    rw [← hc]
    decide
  have hno' : hasSub (str "Blog:") (' ' :: s) = false := by
    rw [show hasSub (str "Blog:") (' ' :: s)
        = ((str "Blog:").isPrefixOf (' ' :: s) || hasSub (str "Blog:") s) from rfl,
      show (str "Blog:").isPrefixOf (' ' :: s) = false from rfl]
    simpa using hno
  have hmarker : isMarker (str "Blog: " ++ s) = false := rfl
  have hpre : (str "Blog:").isPrefixOf (str "Blog: " ++ s) = true := rfl
  simp only [parseAux, pystrip_eq_self hcl, hmarker, Bool.false_eq_true, if_false,
    hpre, if_true]
  rw [show str "Blog: " ++ s = str "Blog:" ++ (' ' :: s) from by simp [str],
    removeAll_label (by decide) hno', pystrip_cons_space, pystrip_eq_self hs]

theorem parseAux_url_line {s : Str} (hs : cleanStr s = true)
    (hno : hasSub (str "URL:") s = false) (rest : List Str) (cur : RawArticle) :
    parseAux ((str "URL: " ++ s) :: rest) cur
      = parseAux rest { cur with url := some s } := by
  have hcl : cleanStr (str "URL: " ++ s) = true := by
    refine cleanStr_lit_append hs (by decide) ?_ (by decide)
    intro c r heq
    rw [show ("URL: " : String).toList
        = 'U' :: 'R' :: 'L' :: ':' :: ' ' :: ([] : Str) from rfl] at heq
    injection heq with hc _
    rw [← hc]
    decide
  have hno' : hasSub (str "URL:") (' ' :: s) = false := by
    rw [show hasSub (str "URL:") (' ' :: s)
        = ((str "URL:").isPrefixOf (' ' :: s) || hasSub (str "URL:") s) from rfl,
      show (str "URL:").isPrefixOf (' ' :: s) = false from rfl]
    simpa using hno
  have hmarker : isMarker (str "URL: " ++ s) = false := rfl
  have hblog : (str "Blog:").isPrefixOf (str "URL: " ++ s) = false := rfl
  have hpre : (str "URL:").isPrefixOf (str "URL: " ++ s) = true := rfl
  simp only [parseAux, pystrip_eq_self hcl, hmarker, hblog, Bool.false_eq_true, if_false,
    hpre, if_true]
  rw [show str "URL: " ++ s = str "URL:" ++ (' ' :: s) from by simp [str],
    removeAll_label (by decide) hno', pystrip_cons_space, pystrip_eq_self hs]

theorem parseAux_pub_line {s : Str} (hs : cleanStr s = true)
    (hno : hasSub (str "Published:") s = false) (rest : List Str) (cur : RawArticle) :
    parseAux ((str "Published: " ++ s) :: rest) cur
      = parseAux rest { cur with date := some s } := by
  have hcl : cleanStr (str "Published: " ++ s) = true := by
    refine cleanStr_lit_append hs (by decide) ?_ (by decide)
    intro c r heq
    rw [show ("Published: " : String).toList
        = 'P' :: 'u' :: 'b' :: 'l' :: 'i' :: 's' :: 'h' :: 'e' :: 'd' :: ':' :: ' ' :: ([] : Str)
      from rfl] at heq
    injection heq with hc _
    rw [← hc]
    decide
  have hno' : hasSub (str "Published:") (' ' :: s) = false := by
    rw [show hasSub (str "Published:") (' ' :: s)
        = ((str "Published:").isPrefixOf (' ' :: s) || hasSub (str "Published:") s) from rfl,
      show (str "Published:").isPrefixOf (' ' :: s) = false from rfl]
    simpa using hno
  have hmarker : isMarker (str "Published: " ++ s) = false := rfl
  have hblog : (str "Blog:").isPrefixOf (str "Published: " ++ s) = false := rfl
  have hurl : (str "URL:").isPrefixOf (str "Published: " ++ s) = false := rfl
  have hpre : (str "Published:").isPrefixOf (str "Published: " ++ s) = true := rfl
  simp only [parseAux, pystrip_eq_self hcl, hmarker, hblog, hurl, Bool.false_eq_true,
    if_false, hpre, if_true]
  rw [show str "Published: " ++ s = str "Published:" ++ (' ' :: s) from by simp [str],
    removeAll_label (by decide) hno', pystrip_cons_space, pystrip_eq_self hs]

theorem parseAux_opt_blog {o : Option Str} (h : cleanField "Blog:" o = true)
    (L : List Str) (t : Option Str) (u d : Option Str) :
    parseAux (blogLines o ++ L) ⟨t, none, u, d⟩ = parseAux L ⟨t, o, u, d⟩ := by
  cases o with
  | none => rfl
  | some s =>
    simp only [cleanField, Bool.and_eq_true, Bool.not_eq_true'] at h
    exact parseAux_blog_line h.1 h.2 L _

theorem parseAux_opt_url {o : Option Str} (h : cleanField "URL:" o = true)
    (L : List Str) (t s2 : Option Str) (d : Option Str) :
    parseAux (urlLines o ++ L) ⟨t, s2, none, d⟩ = parseAux L ⟨t, s2, o, d⟩ := by
  cases o with
  | none => rfl
  | some u =>
    simp only [cleanField, Bool.and_eq_true, Bool.not_eq_true'] at h
    exact parseAux_url_line h.1 h.2 L _

theorem parseAux_opt_pub {o : Option Str} (h : cleanField "Published:" o = true)
    (L : List Str) (t s2 u2 : Option Str) :
    parseAux (pubLines o ++ L) ⟨t, s2, u2, none⟩ = parseAux L ⟨t, s2, u2, o⟩ := by
  cases o with
  | none => rfl
  | some d =>
    simp only [cleanField, Bool.and_eq_true, Bool.not_eq_true'] at h
    exact parseAux_pub_line h.1 h.2 L _

theorem parseAux_serialized :
    ∀ (rs : List RawArticle) (cur : RawArticle),
      (∀ r ∈ rs, cleanRec r = true) →
      parseAux (rs.flatMap recordLines) cur = flushRec cur ++ rs := by
  intro rs
  induction rs with
  | nil =>
    intro cur _
    simp [parseAux]
  | cons r rest ih =>
    intro cur hclean
    obtain ⟨rt, rsrc, rurl, rdate⟩ := r
    have hr := hclean _ (List.mem_cons_self _ rest)
    obtain ⟨t, rfl⟩ : ∃ t, rt = some t := by
      cases hty : rt with
      | none =>
        rw [cleanRec] at hr
        simp [hty] at hr
      | some t => exact ⟨t, rfl⟩
    simp only [cleanRec, Bool.and_eq_true] at hr
    obtain ⟨⟨⟨h1, h2⟩, h3⟩, h4⟩ := hr
    rw [List.flatMap_cons]
    simp only [recordLines, Option.getD_some, List.append_assoc, List.cons_append,
      List.nil_append]
    rw [parseAux_marker_line h1, parseAux_opt_blog h2, parseAux_opt_url h3,
      parseAux_opt_pub h4,
      ih _ (fun x hx => hclean x (List.mem_cons_of_mem _ hx))]
    simp [flushRec]

theorem clean_not_mem_nl {s : Str} (h : cleanStr s = true) : '\n' ∉ s := by
  simp only [cleanStr, Bool.and_eq_true, Bool.not_eq_true'] at h
  simpa using h.2

theorem rev_drop_of_clean {s : Str} (h : cleanStr s = true) :
    s.reverse.dropWhile isPySpace = s.reverse := by
  simp only [cleanStr, Bool.and_eq_true] at h
  cases hrev : s.reverse with
  | nil => rfl
  | cons d r =>
    rw [hrev] at h
    have hd : isPySpace d = false := by simpa using h.1.2
    simp [List.dropWhile_cons, hd]

theorem head_drop_of_clean {s : Str} (h : cleanStr s = true) :
    s.dropWhile isPySpace = s := by
  simp only [cleanStr, Bool.and_eq_true] at h
  cases s with
  | nil => rfl
  | cons c rest =>
    have hc : isPySpace c = false := by simpa using h.1.1.2
    simp [List.dropWhile_cons, hc]

theorem lines_of_record_clean {r : RawArticle} (h : cleanRec r = true) :
    ∀ l ∈ recordLines r, cleanStr l = true := by
  obtain ⟨rt, rsrc, rurl, rdate⟩ := r
  obtain ⟨t, rfl⟩ : ∃ t, rt = some t := by
    cases hty : rt with
    | none =>
      rw [cleanRec] at h
      simp [hty] at h
    | some t => exact ⟨t, rfl⟩
  simp only [cleanRec, Bool.and_eq_true] at h
  obtain ⟨⟨⟨h1, h2⟩, h3⟩, h4⟩ := h
  intro l hl
  simp only [recordLines, Option.getD_some, List.mem_append, List.mem_singleton] at hl
  rcases hl with ((hl | hl) | hl) | hl
  · rw [hl]
    exact cleanStr_unread_line h1
  · cases rsrc with
    | none => simp [blogLines] at hl
    | some s =>
      simp only [blogLines, List.mem_singleton] at hl
      rw [hl]
      simp only [cleanField, Bool.and_eq_true] at h2
      refine cleanStr_lit_append h2.1 (by decide) ?_ (by decide)
      intro c r heq
      rw [show ("Blog: " : String).toList
          = 'B' :: 'l' :: 'o' :: 'g' :: ':' :: ' ' :: ([] : Str) from rfl] at heq
      injection heq with hc _
      rw [← hc]
      decide
  · cases rurl with
    | none => simp [urlLines] at hl
    | some u =>
      simp only [urlLines, List.mem_singleton] at hl
      rw [hl]
      simp only [cleanField, Bool.and_eq_true] at h3
      refine cleanStr_lit_append h3.1 (by decide) ?_ (by decide)
      intro c r heq
      rw [show ("URL: " : String).toList
          = 'U' :: 'R' :: 'L' :: ':' :: ' ' :: ([] : Str) from rfl] at heq
      injection heq with hc _
      rw [← hc]
      decide
  · cases rdate with
    | none => simp [pubLines] at hl
    | some d =>
      simp only [pubLines, List.mem_singleton] at hl
      rw [hl]
      simp only [cleanField, Bool.and_eq_true] at h4
      refine cleanStr_lit_append h4.1 (by decide) ?_ (by decide)
      intro c r heq
      rw [show ("Published: " : String).toList
          = 'P' :: 'u' :: 'b' :: 'l' :: 'i' :: 's' :: 'h' :: 'e' :: 'd' :: ':' :: ' ' :: ([] : Str)
        from rfl] at heq
      injection heq with hc _
      rw [← hc]
      decide

theorem flatMap_recordLines_clean {rs : List RawArticle}
    (h : ∀ r ∈ rs, cleanRec r = true) :
    ∀ l ∈ rs.flatMap recordLines, cleanStr l = true := by
  intro l hl
  rcases List.mem_flatMap.mp hl with ⟨r, hr, hlr⟩
  exact lines_of_record_clean (h r hr) l hlr

theorem intercalate_singleton (a : Str) : List.intercalate ['\n'] [a] = a := by
  simp [List.intercalate]

theorem intercalate_cons2 (a b : Str) (t : List Str) :
    List.intercalate ['\n'] (a :: b :: t)
      = a ++ '\n' :: List.intercalate ['\n'] (b :: t) := by
  simp [List.intercalate, List.intersperse]

theorem intercalate_ne_nil {a : Str} (ha : a ≠ []) (t : List Str) :
    List.intercalate ['\n'] (a :: t) ≠ [] := by
  cases t with
  | nil => rw [intercalate_singleton]; exact ha
  | cons b t' =>
    rw [intercalate_cons2]
    cases a with
    | nil => exact absurd rfl ha
    | cons c a' => simp

theorem intercalate_head_drop {L : List Str} (hne : L ≠ [])
    (hcl : ∀ l ∈ L, cleanStr l = true) :
    (List.intercalate ['\n'] L).dropWhile isPySpace = List.intercalate ['\n'] L := by
  cases L with
  | nil => exact absurd rfl hne
  | cons a L' =>
    have ha := hcl a (List.mem_cons_self a L')
    obtain ⟨c, a', rfl⟩ : ∃ c a', a = c :: a' := by
      cases a with
      | nil => exact absurd rfl (clean_ne_nil ha)
      | cons c a' => exact ⟨c, a', rfl⟩
    have hc : isPySpace c = false := (clean_parts ha).1
    cases L' with
    | nil =>
      rw [intercalate_singleton]
      simp [List.dropWhile_cons, hc]
    | cons b t =>
      rw [intercalate_cons2]
      simp [List.dropWhile_cons, hc]

theorem not_ws_head_of_dropWhile_fix {c : Char} {X : Str}
    (h : List.dropWhile isPySpace (c :: X) = c :: X) : isPySpace c = false := by
  by_cases hc : isPySpace c = true
  · rw [List.dropWhile_cons, if_pos hc] at h
    have hlen := congrArg List.length h
    have h2 : (List.dropWhile isPySpace X).length ≤ X.length :=
      (List.dropWhile_sublist isPySpace).length_le
    simp at hlen
    omega
  · rwa [Bool.not_eq_true] at hc

theorem intercalate_rev_drop {L : List Str} (hne : L ≠ [])
    (hcl : ∀ l ∈ L, cleanStr l = true) :
    (List.intercalate ['\n'] L).reverse.dropWhile isPySpace
      = (List.intercalate ['\n'] L).reverse := by
  induction L with
  | nil => exact absurd rfl hne
  | cons a L' ih =>
    have ha := hcl a (List.mem_cons_self a L')
    cases L' with
    | nil =>
      rw [intercalate_singleton]
      exact rev_drop_of_clean ha
    | cons b t =>
      have hb := hcl b (by simp)
      have ihh := ih (by simp) (fun l hl => hcl l (List.mem_cons_of_mem a hl))
      have hIne : List.intercalate ['\n'] (b :: t) ≠ [] :=
        intercalate_ne_nil (clean_ne_nil hb) t
      have hIrne : (List.intercalate ['\n'] (b :: t)).reverse ≠ [] := by
        simpa using hIne
      obtain ⟨c, X, hcx⟩ : ∃ c X, (List.intercalate ['\n'] (b :: t)).reverse = c :: X := by
        cases hrev : (List.intercalate ['\n'] (b :: t)).reverse with
        | nil => exact absurd hrev hIrne
        | cons c X => exact ⟨c, X, rfl⟩
      have hc : isPySpace c = false := by
        rw [hcx] at ihh
        exact not_ws_head_of_dropWhile_fix ihh
      rw [intercalate_cons2, List.reverse_append, List.reverse_cons, hcx]
      simp [List.dropWhile_cons, hc]

theorem pystrip_intercalate {L : List Str} (hne : L ≠ [])
    (hcl : ∀ l ∈ L, cleanStr l = true) :
    pystrip (List.intercalate ['\n'] L) = List.intercalate ['\n'] L := by
  rw [pystrip, intercalate_head_drop hne hcl, intercalate_rev_drop hne hcl,
    List.reverse_reverse]

theorem splitOn_intercalate_lines {L : List Str} (hne : L ≠ [])
    (hcl : ∀ l ∈ L, cleanStr l = true) :
    (List.intercalate ['\n'] L).splitOn '\n' = L := by
  apply List.splitOn_intercalate
  · exact fun l hl => clean_not_mem_nl (hcl l hl)
  · exact hne

theorem roundtrip_core {rs : List RawArticle} (h : ∀ r ∈ rs, cleanRec r = true) :
    parse_blogwatcher_output (serializeRecords rs) = rs := by
  cases rs with
  | nil => decide
  | cons r rest =>
    have hlines : ∀ l ∈ (r :: rest).flatMap recordLines, cleanStr l = true :=
      flatMap_recordLines_clean h
    have hne : (r :: rest).flatMap recordLines ≠ [] := by
      rw [List.flatMap_cons]
      simp [recordLines]
    rw [parse_blogwatcher_output, serializeRecords,
      pystrip_intercalate hne hlines, splitOn_intercalate_lines hne hlines,
      parseAux_serialized _ _ h]
    rfl

/-! ### C9: parse/serialize round trip -/

/-- C9: re-parsing the serialized form of the records extracted from a
well-formed input (one whose extracted records have clean titles and clean,
label-free attribute values) yields the same records. -/
theorem parse_serialize_roundtrip (out : Str)
    (h : ∀ r ∈ parse_blogwatcher_output out, cleanRec r = true) :
    parse_blogwatcher_output (serializeRecords (parse_blogwatcher_output out))
      = parse_blogwatcher_output out :=
  roundtrip_core h

/-- Witness for C9 at a concrete well-formed input. -/
theorem parse_serialize_roundtrip_witness :
    (∀ r ∈ parse_blogwatcher_output
        (str "[3] [read] Dog clinic opens\nBlog: Western University\nURL: /news/x\nPublished: 2024-01-01"),
      cleanRec r = true)
    ∧ parse_blogwatcher_output
        (serializeRecords (parse_blogwatcher_output
          (str "[3] [read] Dog clinic opens\nBlog: Western University\nURL: /news/x\nPublished: 2024-01-01")))
      = parse_blogwatcher_output
          (str "[3] [read] Dog clinic opens\nBlog: Western University\nURL: /news/x\nPublished: 2024-01-01") :=
  ⟨by decide,
   parse_serialize_roundtrip
     (str "[3] [read] Dog clinic opens\nBlog: Western University\nURL: /news/x\nPublished: 2024-01-01")
     (by decide)⟩
